import Mathlib

/-!
Verification development for the chill CouchDB client library.

This file gives a shallow embedding of the error-classification module
(`src/error.rs`) and the design-document module (`src/design.rs`), together
with spec-modelled definitions for the revision-token and resource-path
parsers whose implementations live outside the provided sources (only their
error-kind enums appear in `src/error.rs`).
-/

deriving instance DecidableEq for Except

namespace Chill

/-- A JSON value, mirroring the shapes `serde_json` can hand to the
deserializers in `error.rs` and `design.rs`. Objects are ordered field
lists, matching the iteration order a serde `MapVisitor` exposes. -/
inductive Json where
  | null
  | bool (b : Bool)
  | num (n : Int)
  | str (s : String)
  | arr (elems : List Json)
  | obj (fields : List (String × Json))

/-- The ways the serde-style deserializers in `error.rs` / `design.rs` can
fail: a required field is absent (`visitor.missing_field`), a field name is
not in the `FIELDS` list (`E::unknown_field`), or a value has the wrong JSON
type for the visitor (serde type error). -/
inductive DecodeError where
  | missingField (name : String)
  | unknownField (name : String)
  | invalidType
deriving DecidableEq

/-- Server-reported error body, from `src/error.rs` (`struct ErrorResponse`):
machine-readable `error` code plus human-readable `reason`. -/
structure ErrorResponse where
  error : String
  reason : String
deriving DecidableEq

/-- Constructor `ErrorResponse::new` from `src/error.rs`. -/
def ErrorResponse.new (error reason : String) : ErrorResponse :=
  ⟨error, reason⟩

/-- Display impl for `ErrorResponse` from `src/error.rs`: `"{error}: {reason}"`. -/
def ErrorResponse.display (e : ErrorResponse) : String :=
  e.error ++ ": " ++ e.reason

/-- Field loop of `ErrorResponse::deserialize` (`src/error.rs`, `visit_map`):
walks the object's entries keeping `error`/`reason` accumulators. A key other
than `"error"`/`"reason"` fails with `unknown_field`; a non-string value
fails with a type error; at the end a missing `error` is reported before a
missing `reason`, exactly as the struct literal in the source evaluates. -/
def decodeERFields : List (String × Json) → Option String → Option String →
    Except DecodeError ErrorResponse
  | [], eo, ro =>
    match eo with
    | none => .error (.missingField "error")
    | some e =>
      match ro with
      | none => .error (.missingField "reason")
      | some r => .ok ⟨e, r⟩
  | (k, v) :: rest, eo, ro =>
    if k = "error" then
      match v with
      | .str s => decodeERFields rest (some s) ro
      | _ => .error .invalidType
    else if k = "reason" then
      match v with
      | .str s => decodeERFields rest eo (some s)
      | _ => .error .invalidType
    else .error (.unknownField k)

/-- `ErrorResponse::deserialize` from `src/error.rs`: only a JSON object is
accepted (the visitor implements `visit_map` alone); its fields are folded by
`decodeERFields` starting from empty accumulators. -/
def decodeErrorResponse : Json → Except DecodeError ErrorResponse
  | .obj fields => decodeERFields fields none none
  | _ => .error .invalidType

/-- `enum PathParseErrorKind` from `src/error.rs`. -/
inductive PathParseErrorKind where
  | BadSegment (expected : String)
  | EmptySegment
  | NoLeadingSlash
  | TooFewSegments
  | TooManySegments
  | TrailingSlash
deriving DecidableEq

/-- `PathParseErrorKind::cause` from `src/error.rs`: always `None`. The
option carries the display text of the underlying cause. -/
def PathParseErrorKind.cause (_ : PathParseErrorKind) : Option String :=
  none

/-- Display impl for `PathParseErrorKind` from `src/error.rs`. -/
def PathParseErrorKind.display : PathParseErrorKind → String
  | .BadSegment expected => "Segment is bad, expected \"" ++ expected ++ "\""
  | .EmptySegment => "Path segment is empty"
  | .NoLeadingSlash => "Path does not begin with a slash"
  | .TooFewSegments => "Too few path segments"
  | .TooManySegments => "Too many path segments"
  | .TrailingSlash => "Path ends with a slash"

/-- `enum RevisionParseErrorKind` from `src/error.rs`. The `DigestParse` and
`NumberParse` payloads are the display texts of the underlying
`uuid::ParseError` / `std::num::ParseIntError` causes. -/
inductive RevisionParseErrorKind where
  | DigestNotAllHex
  | DigestParse (cause : String)
  | NumberParse (cause : String)
  | TooFewParts
  | ZeroSequenceNumber
deriving DecidableEq

/-- `RevisionParseErrorKind::cause` from `src/error.rs`. -/
def RevisionParseErrorKind.cause : RevisionParseErrorKind → Option String
  | .DigestNotAllHex => none
  | .DigestParse c => some c
  | .NumberParse c => some c
  | .TooFewParts => none
  | .ZeroSequenceNumber => none

/-- Display impl for `RevisionParseErrorKind` from `src/error.rs`. -/
def RevisionParseErrorKind.display : RevisionParseErrorKind → String
  | .DigestNotAllHex => "Digest part contains one or more non-hexadecimal characters"
  | .DigestParse c => "The digest part is invalid: " ++ c
  | .NumberParse c => "The number part is invalid: " ++ c
  | .TooFewParts => "Too few parts, missing number part and/or digest part"
  | .ZeroSequenceNumber => "The number part is zero"

/-- `enum TransportErrorKind` from `src/error.rs`; the payload is the display
text of the wrapped `hyper::Error`. -/
inductive TransportErrorKind where
  | Hyper (cause : String)
deriving DecidableEq

/-- `TransportErrorKind::cause` from `src/error.rs`. -/
def TransportErrorKind.cause : TransportErrorKind → Option String
  | .Hyper c => some c

/-- Display impl for `TransportErrorKind` from `src/error.rs`: delegates to
the wrapped cause's formatting. -/
def TransportErrorKind.display : TransportErrorKind → String
  | .Hyper c => c

/-- `enum Error` from `src/error.rs`. External cause values
(`RecvError`, `io::Error`, `serde_json::Error`, `hyper::Error`,
`url::ParseError`) are represented by their display texts; `mime::Mime` by
its display text; `StatusCode` by its numeric value. -/
inductive Error where
  | ChannelReceive (cause : String) (description : String)
  | DatabaseExists (errorResponse : ErrorResponse)
  | DocumentConflict (errorResponse : ErrorResponse)
  | DocumentIsDeleted
  | Io (cause : String) (description : String)
  | JsonDecode (cause : String)
  | JsonEncode (cause : String)
  | Mock (extraDescription : String)
  | NotFound (errorResponse : ErrorResponse)
  | PathParse (kind : PathParseErrorKind)
  | ResponseNotJson (contentType : Option String)
  | RevisionParse (kind : RevisionParseErrorKind)
  | ServerResponse (statusCode : Nat) (errorResponse : Option ErrorResponse)
  | Transport (kind : TransportErrorKind)
  | Unauthorized (errorResponse : ErrorResponse)
  | UnexpectedResponse (subDescription : String)
  | UrlNotSchemeRelative
  | UrlParse (cause : String)
deriving DecidableEq

/-- Hyper's `StatusCode::class()` collapsed to the one question
`Error::description` asks of it: is the status a client or server error
(4xx or 5xx)? -/
def statusIsErrorClass (status : Nat) : Bool :=
  400 ≤ status && status < 600

/-- Hyper's `StatusCode::canonical_reason()`, restricted to the codes this
development exercises; an external table, modelled partially (no claim
depends on its contents). -/
def canonicalReason (status : Nat) : Option String :=
  if status = 401 then some "Unauthorized"
  else if status = 404 then some "Not Found"
  else if status = 409 then some "Conflict"
  else if status = 500 then some "Internal Server Error"
  else none

/-- `std::error::Error::description` impl for `Error` from `src/error.rs`. -/
def Error.description : Error → String
  | .ChannelReceive _ d => d
  | .DatabaseExists _ => "The database already exists"
  | .DocumentConflict _ => "A conflicting document with the same id exists"
  | .DocumentIsDeleted => "The document is deleted"
  | .Io _ d => d
  | .JsonDecode _ => "An error occurred while decoding JSON"
  | .JsonEncode _ => "An error occurred while encoding JSON"
  | .Mock _ => "A error occurred while test-mocking"
  | .NotFound _ => "The resource cannot be found"
  | .PathParse _ => "The path is badly formatted"
  | .ResponseNotJson (some _) => "The response has non-JSON content"
  | .ResponseNotJson none => "The response content has no type"
  | .RevisionParse _ => "The revision is badly formatted"
  | .ServerResponse status _ =>
    if statusIsErrorClass status then "The CouchDB server responded with an error"
    else "The CouchDB server responded with an unexpected status"
  | .Transport _ => "An HTTP transport error occurred"
  | .Unauthorized _ => "The CouchDB client has insufficient privilege"
  | .UnexpectedResponse _ => "The CouchDB server responded unexpectedly"
  | .UrlNotSchemeRelative => "The URL is not scheme relative"
  | .UrlParse _ => "The URL is badly formatted"

/-- `std::error::Error::cause` impl for `Error` from `src/error.rs`,
returning the display text of the cause when one exists. -/
def Error.cause : Error → Option String
  | .ChannelReceive c _ => some c
  | .DatabaseExists _ => none
  | .DocumentConflict _ => none
  | .DocumentIsDeleted => none
  | .Io c _ => some c
  | .JsonDecode c => some c
  | .JsonEncode c => some c
  | .Mock _ => none
  | .NotFound _ => none
  | .PathParse kind => kind.cause
  | .ResponseNotJson _ => none
  | .RevisionParse kind => kind.cause
  | .ServerResponse _ _ => none
  | .Transport kind => kind.cause
  | .Unauthorized _ => none
  | .UnexpectedResponse _ => none
  | .UrlNotSchemeRelative => none
  | .UrlParse c => some c

/-- Display impl for `Error` from `src/error.rs`. Each arm writes the
variant's `description`, then (when present) the payload after `": "`. -/
def Error.display : Error → String
  | .ChannelReceive c d => d ++ ": " ++ c
  | .DatabaseExists er => (Error.DatabaseExists er).description ++ ": " ++ er.display
  | .DocumentConflict er => (Error.DocumentConflict er).description ++ ": " ++ er.display
  | .DocumentIsDeleted => Error.DocumentIsDeleted.description
  | .Io c d => d ++ ": " ++ c
  | .JsonDecode c => (Error.JsonDecode c).description ++ ": " ++ c
  | .JsonEncode c => (Error.JsonEncode c).description ++ ": " ++ c
  | .Mock x => (Error.Mock x).description ++ ": " ++ x
  | .NotFound er => (Error.NotFound er).description ++ ": " ++ er.display
  | .PathParse kind => (Error.PathParse kind).description ++ ": " ++ kind.display
  | .ResponseNotJson (some ct) =>
    (Error.ResponseNotJson (some ct)).description ++ ": Content type is " ++ ct
  | .ResponseNotJson none => (Error.ResponseNotJson none).description
  | .RevisionParse kind => (Error.RevisionParse kind).description ++ ": " ++ kind.display
  | .ServerResponse status er =>
    (Error.ServerResponse status er).description ++ " (" ++ toString status ++
      (match canonicalReason status with
        | none => ")"
        | some reason => ": " ++ reason ++ ")") ++
      (match er with
        | some er => ": " ++ er.display
        | none => "")
  | .Transport kind => (Error.Transport kind).description ++ ": " ++ kind.display
  | .Unauthorized er => (Error.Unauthorized er).description ++ ": " ++ er.display
  | .UnexpectedResponse sub => (Error.UnexpectedResponse sub).description ++ ": " ++ sub
  | .UrlNotSchemeRelative => Error.UrlNotSchemeRelative.description
  | .UrlParse c => (Error.UrlParse c).description ++ ": " ++ c

/-- Modelled from the spec: the transport boundary's `JsonResponse`
(`transport::JsonResponse`, not among the provided sources). It carries the
HTTP status code and the response content: `some j` when the body is valid
JSON decoded as `j`, `none` when the body is not valid JSON. -/
structure JsonResponse where
  statusCode : Nat
  content : Option Json

/-- Display text attached to the `serde_json` failure a decode error
produces; the exact wording belongs to the external `serde_json` crate. -/
def renderDecodeError : DecodeError → String
  | .missingField name => "missing field " ++ name
  | .unknownField name => "unknown field " ++ name
  | .invalidType => "invalid type"

/-- `JsonResponse::status_code` accessor (transport boundary). -/
def JsonResponse.status_code (r : JsonResponse) : Nat :=
  r.statusCode

/-- Modelled from the spec: `JsonResponse::decode_content::<ErrorResponse>`
(transport boundary, not among the provided sources). Per the spec, a body
that is not valid JSON or does not decode as an `ErrorResponse` yields a
`JsonDecode` error carrying the underlying cause; decoding is never assumed
to succeed. -/
def JsonResponse.decode_content (r : JsonResponse) : Except Error ErrorResponse :=
  match r.content with
  | none => .error (.JsonDecode "expected value")
  | some j =>
    match decodeErrorResponse j with
    | .ok e => .ok e
    | .error de => .error (.JsonDecode (renderDecodeError de))

/-- `Error::server_response` from `src/error.rs`: keeps the status code and
the decoded body when decoding succeeded (`Result::ok`). -/
def Error.server_response (response : JsonResponse) : Error :=
  Error.ServerResponse response.status_code response.decode_content.toOption

/-- `Error::database_exists` from `src/error.rs` (intent: create-database). -/
def Error.database_exists (response : JsonResponse) : Error :=
  match response.decode_content with
  | .ok x => Error.DatabaseExists x
  | .error x => x

/-- `Error::document_conflict` from `src/error.rs` (intent: document write). -/
def Error.document_conflict (response : JsonResponse) : Error :=
  match response.decode_content with
  | .ok x => Error.DocumentConflict x
  | .error x => x

/-- `Error::not_found` from `src/error.rs` (intent: lookup). -/
def Error.not_found (response : JsonResponse) : Error :=
  match response.decode_content with
  | .ok x => Error.NotFound x
  | .error x => x

/-- `Error::unauthorized` from `src/error.rs`. -/
def Error.unauthorized (response : JsonResponse) : Error :=
  match response.decode_content with
  | .ok x => Error.Unauthorized x
  | .error x => x

/-- View name, `ViewName` in the library: a string newtype, modelled as a
plain string. -/
abbrev ViewName := String

/-- `struct ViewFunction` from `src/design.rs`: a map function and an
optional reduce function. The private `_dummy` marker field carries no
data and is omitted. -/
structure ViewFunction where
  map : String
  reduce : Option String
deriving DecidableEq

/-- `ViewFunction::new` from `src/design.rs`. -/
def ViewFunction.new (map : String) : ViewFunction :=
  ⟨map, none⟩

/-- `ViewFunction::new_with_reduce` from `src/design.rs`. -/
def ViewFunction.new_with_reduce (map reduce : String) : ViewFunction :=
  ⟨map, some reduce⟩

/-- Strict lexicographic order on character lists, used to keep the
views-map model canonically sorted. -/
def charListLt : List Char → List Char → Bool
  | [], [] => false
  | [], _ :: _ => true
  | _ :: _, [] => false
  | a :: as, b :: bs =>
    if a < b then true
    else if b < a then false
    else charListLt as bs

/-- Strict order on view names (lexicographic on their characters). -/
def keyLt (a b : ViewName) : Bool :=
  charListLt a.data b.data

/-- Insertion into a name-keyed association list kept sorted by key. This
models `std::collections::HashMap::insert`: an existing binding of the same
key is replaced, and keeping the list sorted makes structural equality of
the model coincide with the `HashMap`'s own key-set-extensional equality. -/
def insertSorted (k : ViewName) (v : ViewFunction) :
    List (ViewName × ViewFunction) → List (ViewName × ViewFunction)
  | [] => [(k, v)]
  | (k', v') :: rest =>
    if keyLt k k' then (k, v) :: (k', v') :: rest
    else if k = k' then (k, v) :: rest
    else (k', v') :: insertSorted k v rest

/-- `struct Design` from `src/design.rs`: the `views` field, a
`HashMap<ViewName, ViewFunction>` modelled as a key-sorted association list
(see `insertSorted`); the private `_dummy` marker field is omitted. -/
structure Design where
  views : List (ViewName × ViewFunction)
deriving DecidableEq

/-- `struct DesignBuilder` from `src/design.rs`. -/
structure DesignBuilder where
  inner : Design

/-- `DesignBuilder::new` from `src/design.rs`: empty views map. -/
def DesignBuilder.new : DesignBuilder :=
  ⟨⟨[]⟩⟩

/-- `DesignBuilder::unwrap` from `src/design.rs`. -/
def DesignBuilder.unwrap (b : DesignBuilder) : Design :=
  b.inner

/-- `DesignBuilder::insert_view` from `src/design.rs`: inserts into the
views map (replacing any binding with the same name) and returns the
builder. -/
def DesignBuilder.insert_view (b : DesignBuilder) (viewName : ViewName)
    (viewFunction : ViewFunction) : DesignBuilder :=
  ⟨⟨insertSorted viewName viewFunction b.inner.views⟩⟩

/-- Field loop of `ViewFunction::deserialize` (`src/design.rs`, `visit_map`):
accumulates `map`/`reduce`, fails with `unknown_field` on any other key and
with a type error on a non-string value; at the end a missing `map` is an
error while a missing `reduce` stays `None`. -/
def decodeVFFields : List (String × Json) → Option String → Option String →
    Except DecodeError ViewFunction
  | [], mo, ro =>
    match mo with
    | none => .error (.missingField "map")
    | some m => .ok ⟨m, ro⟩
  | (k, v) :: rest, mo, ro =>
    if k = "map" then
      match v with
      | .str s => decodeVFFields rest (some s) ro
      | _ => .error .invalidType
    else if k = "reduce" then
      match v with
      | .str s => decodeVFFields rest mo (some s)
      | _ => .error .invalidType
    else .error (.unknownField k)

/-- `ViewFunction::deserialize` from `src/design.rs`. -/
def decodeViewFunction : Json → Except DecodeError ViewFunction
  | .obj fields => decodeVFFields fields none none
  | _ => .error .invalidType

/-- Entry loop of serde's `HashMap<ViewName, ViewFunction>` deserialization
(the `visit_value` for the `views` field of `Design`): decodes each value as
a `ViewFunction` and inserts it under its key. -/
def decodeViewsEntries (acc : List (ViewName × ViewFunction)) :
    List (String × Json) → Except DecodeError (List (ViewName × ViewFunction))
  | [] => .ok acc
  | (k, v) :: rest =>
    match decodeViewFunction v with
    | .ok f => decodeViewsEntries (insertSorted k f acc) rest
    | .error e => .error e

/-- serde deserialization of `HashMap<ViewName, ViewFunction>`, used for the
`views` field value in `Design::deserialize`: only a JSON object is
accepted. -/
def decodeViewsMap : Json → Except DecodeError (List (ViewName × ViewFunction))
  | .obj fields => decodeViewsEntries [] fields
  | _ => .error .invalidType

/-- Field loop of `Design::deserialize` (`src/design.rs`, `visit_map`): the
only known key is `"views"` (any other fails with `unknown_field`); at the
end a missing `views` defaults to the empty map (`HashMap::new()`). -/
def decodeDesignFields : List (String × Json) →
    Option (List (ViewName × ViewFunction)) → Except DecodeError Design
  | [], vo => .ok ⟨vo.getD []⟩
  | (k, v) :: rest, _vo =>
    if k = "views" then
      match decodeViewsMap v with
      | .ok m => decodeDesignFields rest (some m)
      | .error e => .error e
    else .error (.unknownField k)

/-- `Design::deserialize` from `src/design.rs`: only a JSON object is
accepted. -/
def decodeDesign : Json → Except DecodeError Design
  | .obj fields => decodeDesignFields fields none
  | _ => .error .invalidType

/-- Decimal digit character for a value below ten. -/
def digitChar (n : Nat) : Char :=
  Char.ofNat (48 + n)

/-- Decimal representation of a natural number, most significant digit
first; the rendering used by the revision formatter for the sequence
number. -/
def natToDigits (n : Nat) : List Char :=
  if _h : n < 10 then [digitChar n]
  else natToDigits (n / 10) ++ [digitChar (n % 10)]
decreasing_by
  exact Nat.div_lt_self (by omega) (by omega)

/-- Accumulating value of a decimal digit string. -/
def valNatAux : Nat → List Char → Nat
  | acc, [] => acc
  | acc, c :: rest => valNatAux (acc * 10 + (c.toNat - 48)) rest

/-- Parse a nonempty all-decimal character list as a natural number;
`none` models `u64::from_str` failing (`ParseIntError`). -/
def parseNatDigits (l : List Char) : Option Nat :=
  if l.isEmpty then none
  else if l.all Char.isDigit then some (valNatAux 0 l)
  else none

/-- Split a character list at the first `-`, returning the parts before and
after it; `none` when no `-` occurs (the `splitn(2, '-')` of the revision
parser yielding fewer than two parts). -/
def splitFirstDash : List Char → Option (List Char × List Char)
  | [] => none
  | c :: rest =>
    if c = '-' then some ([], rest)
    else
      match splitFirstDash rest with
      | none => none
      | some (p, s) => some (c :: p, s)

/-- Hexadecimal character test used on the digest part. -/
def isHexChar (c : Char) : Bool :=
  c.isDigit || ('a' ≤ c && c ≤ 'f') || ('A' ≤ c && c ≤ 'F')

/-- Revision identifier: positive sequence number plus hexadecimal digest
(`"<sequence>-<digest>"` on the wire). The implementing type is not among
the provided sources; attributes follow the spec's data model. -/
structure RevisionId where
  sequence : Nat
  digest : String
deriving DecidableEq

/-- Modelled from the spec: the revision-token parser (`Revision::parse`,
not among the provided sources; only its error enum `RevisionParseErrorKind`
is in `src/error.rs`). Split on the first `-` (`TooFewParts` when absent),
parse the prefix as a positive integer (`NumberParse` when non-numeric,
`ZeroSequenceNumber` when zero), and require every digest character to be
hexadecimal (`DigestNotAllHex`), storing the digest verbatim. The spec's
further structured-digest validation (`DigestParse`) is not modelled. -/
def Revision.parse (s : String) : Except RevisionParseErrorKind RevisionId :=
  match splitFirstDash s.data with
  | none => .error .TooFewParts
  | some (pre, suf) =>
    match parseNatDigits pre with
    | none => .error (.NumberParse "invalid digit found in string")
    | some n =>
      if n = 0 then .error .ZeroSequenceNumber
      else if suf.all isHexChar then .ok ⟨n, ⟨suf⟩⟩
      else .error .DigestNotAllHex

/-- Modelled from the spec: the revision formatter, the exact inverse of
parsing — `"{sequence}-{digest}"` with the digest verbatim. -/
def Revision.format (r : RevisionId) : String :=
  ⟨natToDigits r.sequence ++ '-' :: r.digest.data⟩

/-- Split a character list on `/`, keeping empty segments (so `"a//b"`
yields an empty middle segment and `""` yields one empty segment). -/
def splitSlash : List Char → List (List Char)
  | [] => [[]]
  | c :: rest =>
    if c = '/' then [] :: splitSlash rest
    else
      match splitSlash rest with
      | [] => [[c]]
      | s :: ss => (c :: s) :: ss

/-- Modelled from the spec: parsing a document path from a character list
(`DocumentPath` parsing is not among the provided sources; only its error
enum `PathParseErrorKind` is in `src/error.rs`). The string must begin with
`/` (`NoLeadingSlash`) and must not end with one (`TrailingSlash`); after
splitting, the segment count must be exactly two — database name and
document id — (`TooFewSegments` / `TooManySegments`), and no segment may be
empty (`EmptySegment`). -/
def parseDocPathChars (l : List Char) : Except PathParseErrorKind (String × String) :=
  match l with
  | [] => .error .NoLeadingSlash
  | c :: rest =>
    if c ≠ '/' then .error .NoLeadingSlash
    else if rest.getLast? = some '/' then .error .TrailingSlash
    else
      match splitSlash rest with
      | [db, doc] =>
        if db.isEmpty then .error .EmptySegment
        else if doc.isEmpty then .error .EmptySegment
        else .ok (⟨db⟩, ⟨doc⟩)
      | segs =>
        if segs.length < 2 then .error .TooFewSegments
        else .error .TooManySegments

/-- Modelled from the spec: `DocumentPath` parsing on strings; returns the
database-name and document-id segments. -/
def DocumentPath.parse (s : String) : Except PathParseErrorKind (String × String) :=
  parseDocPathChars s.data

/-- Discriminator: did an `ErrorResponse` decode fail specifically with a
missing-field error? -/
def isMissingFieldFailure : Except DecodeError ErrorResponse → Bool
  | .error (.missingField _) => true
  | _ => false

/-- C1: classification of a 409 (conflict-class) response whose body decodes
as an `ErrorResponse` follows the caller's intent: the create-database
constructor `Error::database_exists` yields `DatabaseExists` with the
decoded body, and the document-write constructor `Error::document_conflict`
yields `DocumentConflict` with the decoded body. -/
theorem conflict_classification_by_intent (r : JsonResponse) (e : ErrorResponse)
    (_hs : r.status_code = 409) (hd : r.decode_content = .ok e) :
    Error.database_exists r = .DatabaseExists e ∧
    Error.document_conflict r = .DocumentConflict e := by
  unfold Error.database_exists Error.document_conflict
  rw [hd]
  exact ⟨rfl, rfl⟩

/-- C1 witness: a concrete 409 response with body
`{"error": "file_exists", "reason": "exists"}`. -/
theorem conflict_classification_by_intent_witness :
    Error.database_exists
        ⟨409, some (.obj [("error", .str "file_exists"), ("reason", .str "exists")])⟩ =
      .DatabaseExists ⟨"file_exists", "exists"⟩ ∧
    Error.document_conflict
        ⟨409, some (.obj [("error", .str "file_exists"), ("reason", .str "exists")])⟩ =
      .DocumentConflict ⟨"file_exists", "exists"⟩ :=
  conflict_classification_by_intent
    ⟨409, some (.obj [("error", .str "file_exists"), ("reason", .str "exists")])⟩
    ⟨"file_exists", "exists"⟩ rfl rfl

/-- C2: whenever decoding a response body as an `ErrorResponse` fails, every
intent-specific constructor (`not_found`, `unauthorized`, `database_exists`,
`document_conflict`) returns exactly the decode failure — which is a
`JsonDecode` error — rather than any other (e.g. generic server) error. -/
theorem decode_failure_propagates (r : JsonResponse) (err : Error)
    (h : r.decode_content = .error err) :
    (∃ c, err = .JsonDecode c) ∧
    Error.not_found r = err ∧ Error.unauthorized r = err ∧
    Error.database_exists r = err ∧ Error.document_conflict r = err := by
  have hj : ∃ c, err = .JsonDecode c := by
    cases hc : r.content with
    | none =>
      simp only [JsonResponse.decode_content, hc, Except.error.injEq] at h
      exact ⟨_, h.symm⟩
    | some j =>
      simp only [JsonResponse.decode_content, hc] at h
      cases hd : decodeErrorResponse j with
      | ok e =>
        simp only [hd] at h
        exact Except.noConfusion h
      | error de =>
        simp only [hd, Except.error.injEq] at h
        exact ⟨_, h.symm⟩
  refine ⟨hj, ?_, ?_, ?_, ?_⟩
  · unfold Error.not_found
    rw [h]
  · unfold Error.unauthorized
    rw [h]
  · unfold Error.database_exists
    rw [h]
  · unfold Error.document_conflict
    rw [h]

/-- C2 witness: a concrete response whose body is not valid JSON. -/
theorem decode_failure_propagates_witness :
    (∃ c, Error.JsonDecode "expected value" = .JsonDecode c) ∧
    Error.not_found ⟨500, none⟩ = .JsonDecode "expected value" ∧
    Error.unauthorized ⟨500, none⟩ = .JsonDecode "expected value" ∧
    Error.database_exists ⟨500, none⟩ = .JsonDecode "expected value" ∧
    Error.document_conflict ⟨500, none⟩ = .JsonDecode "expected value" :=
  decode_failure_propagates ⟨500, none⟩ (.JsonDecode "expected value") rfl

/-- C3: `Error::server_response` always yields `ServerResponse` carrying the
response's status code unchanged, with `error_response = none` exactly when
the body failed to decode as an `ErrorResponse`; in particular a 500
response with a non-JSON body yields `ServerResponse 500 none`. -/
theorem server_response_preserves_status :
    (∀ r : JsonResponse, ∃ o,
      Error.server_response r = .ServerResponse r.status_code o ∧
        (o = none ↔ r.decode_content.isOk = false)) ∧
    Error.server_response ⟨500, none⟩ = .ServerResponse 500 none := by
  constructor
  · intro r
    refine ⟨r.decode_content.toOption, rfl, ?_⟩
    cases h : r.decode_content <;> simp [Except.toOption, Except.isOk, Except.toBool]
  · rfl

/-- C5: whenever `Error::cause` returns an underlying cause, the display
text of the error contains (here: ends with) the display text of that
cause. -/
theorem display_embeds_cause (e : Error) (c : String) (h : e.cause = some c) :
    ∃ s, e.display = s ++ c := by
  cases e with
  | ChannelReceive cause d =>
    simp only [Error.cause, Option.some.injEq] at h
    subst h
    exact ⟨d ++ ": ", rfl⟩
  | Io cause d =>
    simp only [Error.cause, Option.some.injEq] at h
    subst h
    exact ⟨d ++ ": ", rfl⟩
  | JsonDecode cause =>
    simp only [Error.cause, Option.some.injEq] at h
    subst h
    exact ⟨"An error occurred while decoding JSON" ++ ": ", rfl⟩
  | JsonEncode cause =>
    simp only [Error.cause, Option.some.injEq] at h
    subst h
    exact ⟨"An error occurred while encoding JSON" ++ ": ", rfl⟩
  | PathParse kind => cases kind <;> simp [Error.cause, PathParseErrorKind.cause] at h
  | RevisionParse kind =>
    cases kind with
    | DigestParse cause =>
      simp only [Error.cause, RevisionParseErrorKind.cause, Option.some.injEq] at h
      subst h
      exact ⟨("The revision is badly formatted" ++ ": ") ++ "The digest part is invalid: ",
        (String.append_assoc ("The revision is badly formatted" ++ ": ")
          "The digest part is invalid: " cause).symm⟩
    | NumberParse cause =>
      simp only [Error.cause, RevisionParseErrorKind.cause, Option.some.injEq] at h
      subst h
      exact ⟨("The revision is badly formatted" ++ ": ") ++ "The number part is invalid: ",
        (String.append_assoc ("The revision is badly formatted" ++ ": ")
          "The number part is invalid: " cause).symm⟩
    | DigestNotAllHex => simp [Error.cause, RevisionParseErrorKind.cause] at h
    | TooFewParts => simp [Error.cause, RevisionParseErrorKind.cause] at h
    | ZeroSequenceNumber => simp [Error.cause, RevisionParseErrorKind.cause] at h
  | Transport kind =>
    cases kind with
    | Hyper cause =>
      simp only [Error.cause, TransportErrorKind.cause, Option.some.injEq] at h
      subst h
      exact ⟨"An HTTP transport error occurred" ++ ": ", rfl⟩
  | UrlParse cause =>
    simp only [Error.cause, Option.some.injEq] at h
    subst h
    exact ⟨"The URL is badly formatted" ++ ": ", rfl⟩
  | DatabaseExists er => simp [Error.cause] at h
  | DocumentConflict er => simp [Error.cause] at h
  | DocumentIsDeleted => simp [Error.cause] at h
  | Mock x => simp [Error.cause] at h
  | NotFound er => simp [Error.cause] at h
  | ResponseNotJson ct => simp [Error.cause] at h
  | ServerResponse status er => simp [Error.cause] at h
  | Unauthorized er => simp [Error.cause] at h
  | UnexpectedResponse sub => simp [Error.cause] at h
  | UrlNotSchemeRelative => simp [Error.cause] at h

/-- C5 witness: a concrete `JsonDecode` error with cause text `boom`. -/
theorem display_embeds_cause_witness :
    ∃ s, (Error.JsonDecode "boom").display = s ++ "boom" :=
  display_embeds_cause (.JsonDecode "boom") "boom" rfl

/-- Helper: a successful `decodeERFields` run saw each required field among
the remaining entries unless it was already accumulated. -/
theorem decodeERFields_ok_keys :
    ∀ (fields : List (String × Json)) (eo ro : Option String) (e : ErrorResponse),
      decodeERFields fields eo ro = .ok e →
      ("error" ∈ fields.map Prod.fst ∨ eo.isSome = true) ∧
      ("reason" ∈ fields.map Prod.fst ∨ ro.isSome = true)
  | [], eo, ro, e => by
    intro h
    cases eo with
    | none => simp [decodeERFields] at h
    | some x =>
      cases ro with
      | none => simp [decodeERFields] at h
      | some y => exact ⟨.inr rfl, .inr rfl⟩
  | (k, v) :: rest, eo, ro, e => by
    intro h
    simp only [decodeERFields] at h
    by_cases hk : k = "error"
    · rw [if_pos hk] at h
      rcases v with _ | _ | _ | s | _ | _ <;> try exact Except.noConfusion h
      have ih := decodeERFields_ok_keys rest (some s) ro e h
      refine ⟨.inl (by simp [hk]), ?_⟩
      rcases ih.2 with hr | hr
      · exact .inl (List.mem_cons.mpr (.inr hr))
      · exact .inr hr
    · rw [if_neg hk] at h
      by_cases hk2 : k = "reason"
      · rw [if_pos hk2] at h
        rcases v with _ | _ | _ | s | _ | _ <;> try exact Except.noConfusion h
        have ih := decodeERFields_ok_keys rest eo (some s) e h
        refine ⟨?_, .inl (by simp [hk2])⟩
        rcases ih.1 with hr | hr
        · exact .inl (List.mem_cons.mpr (.inr hr))
        · exact .inr hr
      · rw [if_neg hk2] at h
        exact Except.noConfusion h

/-- Helper: on an object whose entries all have known keys and string
values, an absent `error` field is reported as `missing_field "error"`. -/
theorem decodeERFields_missing_error :
    ∀ (fields : List (String × Json)) (ro : Option String),
      (∀ kv ∈ fields, (kv.1 = "error" ∨ kv.1 = "reason") ∧ ∃ s, kv.2 = Json.str s) →
      "error" ∉ fields.map Prod.fst →
      decodeERFields fields none ro = .error (.missingField "error")
  | [], ro, _, _ => by cases ro <;> rfl
  | (k, v) :: rest, ro, hclean, hmem => by
    obtain ⟨hk, s, hs⟩ := hclean (k, v) (List.mem_cons_self _ _)
    have hkne : k ≠ "error" := fun he => hmem (by simp [he])
    have hkr : k = "reason" := hk.resolve_left hkne
    subst hkr
    subst hs
    simp only [decodeERFields, if_neg hkne, if_pos rfl]
    exact decodeERFields_missing_error rest (some s)
      (fun kv hkv => hclean kv (List.mem_cons_of_mem _ hkv))
      (fun hx => hmem (List.mem_cons_of_mem _ hx))

/-- Helper: on an object whose entries all have known keys and string
values, a present `error` but absent `reason` is reported as
`missing_field "reason"`. -/
theorem decodeERFields_missing_reason :
    ∀ (fields : List (String × Json)) (eo : Option String),
      (∀ kv ∈ fields, (kv.1 = "error" ∨ kv.1 = "reason") ∧ ∃ s, kv.2 = Json.str s) →
      "reason" ∉ fields.map Prod.fst →
      ("error" ∈ fields.map Prod.fst ∨ eo.isSome = true) →
      decodeERFields fields eo none = .error (.missingField "reason")
  | [], eo, _, _, hin => by
    rcases hin with hx | hx
    · simp at hx
    · cases eo with
      | none => simp at hx
      | some x => rfl
  | (k, v) :: rest, eo, hclean, hmem, _hin => by
    obtain ⟨hk, s, hs⟩ := hclean (k, v) (List.mem_cons_self _ _)
    have hknr : k ≠ "reason" := fun he => hmem (by simp [he])
    have hke : k = "error" := hk.resolve_right hknr
    subst hke
    subst hs
    simp only [decodeERFields, if_pos rfl]
    exact decodeERFields_missing_reason rest (some s)
      (fun kv hkv => hclean kv (List.mem_cons_of_mem _ hkv))
      (fun hx => hmem (List.mem_cons_of_mem _ hx))
      (.inr rfl)

/-- C4 counterexample: the JSON object with the single field `x` (which has
neither an `error` nor a `reason` field) fails with an unknown-field error,
not with a missing-field error. -/
theorem error_response_decode_unknown_field_cex :
    decodeErrorResponse (.obj [("x", Json.null)]) = .error (.unknownField "x") ∧
    isMissingFieldFailure (decodeErrorResponse (.obj [("x", Json.null)])) = false :=
  ⟨rfl, rfl⟩

/-- C4 (amended): decoding an `ErrorResponse` succeeds only when both the
`error` and the `reason` field are present, and on objects consisting only
of known fields with string values the absence of either field fails with
the corresponding missing-field error (never a default); an unknown field,
however, fails with an unknown-field error instead. -/
theorem error_response_decode_requires_both :
    (∀ (fields : List (String × Json)) (e : ErrorResponse),
      decodeErrorResponse (.obj fields) = .ok e →
      "error" ∈ fields.map Prod.fst ∧ "reason" ∈ fields.map Prod.fst) ∧
    (∀ fields : List (String × Json),
      (∀ kv ∈ fields, (kv.1 = "error" ∨ kv.1 = "reason") ∧ ∃ s, kv.2 = Json.str s) →
      ("error" ∉ fields.map Prod.fst →
        decodeErrorResponse (.obj fields) = .error (.missingField "error")) ∧
      ("error" ∈ fields.map Prod.fst → "reason" ∉ fields.map Prod.fst →
        decodeErrorResponse (.obj fields) = .error (.missingField "reason"))) := by
  constructor
  · intro fields e h
    have hks := decodeERFields_ok_keys fields none none e h
    simpa using hks
  · intro fields hclean
    constructor
    · intro hmem
      exact decodeERFields_missing_error fields none hclean hmem
    · intro hin hmem
      exact decodeERFields_missing_reason fields none hclean hmem (.inl hin)

/-- C4 witness: the repository's own test input, an object with only a
`reason` field, fails with `missing_field "error"`. -/
theorem error_response_decode_requires_both_witness :
    decodeErrorResponse (.obj [("reason", Json.str "foo")]) =
      .error (.missingField "error") :=
  (error_response_decode_requires_both.2 [("reason", Json.str "foo")]
    (fun kv hkv => by
      rcases List.mem_singleton.mp hkv with rfl
      exact ⟨.inr rfl, "foo", rfl⟩)).1 (by decide)

/-- C9 counterexample: inserting two different view functions under the same
name is order-sensitive — the later insertion wins, so the two orders build
different designs. -/
theorem design_builder_insert_view_not_comm :
    ((DesignBuilder.new.insert_view "a" (ViewFunction.new "m1")).insert_view "a"
        (ViewFunction.new "m2")).unwrap ≠
      ((DesignBuilder.new.insert_view "a" (ViewFunction.new "m2")).insert_view "a"
        (ViewFunction.new "m1")).unwrap := by
  decide

/-- Helper: the lexicographic order on character lists is asymmetric. -/
theorem charListLt_asymm :
    ∀ x y : List Char, charListLt x y = true → charListLt y x = false
  | [], [], h => by simp [charListLt] at h
  | [], _ :: _, _ => rfl
  | _ :: _, [], h => by simp [charListLt] at h
  | a :: as, b :: bs, h => by
    simp only [charListLt] at h ⊢
    rcases lt_trichotomy a b with hab | hab | hab
    · rw [if_neg (lt_asymm hab), if_pos hab]
    · subst hab
      rw [if_neg (lt_irrefl a), if_neg (lt_irrefl a)] at h ⊢
      exact charListLt_asymm as bs h
    · rw [if_neg (lt_asymm hab), if_pos hab] at h
      exact absurd h (by simp)

/-- Helper: character lists unrelated by the lexicographic order in either
direction are equal. -/
theorem charListLt_eq_of_not :
    ∀ x y : List Char, charListLt x y = false → charListLt y x = false → x = y
  | [], [], _, _ => rfl
  | [], _ :: _, h, _ => by simp [charListLt] at h
  | _ :: _, [], _, h => by simp [charListLt] at h
  | a :: as, b :: bs, h, h' => by
    simp only [charListLt] at h h'
    rcases lt_trichotomy a b with hab | hab | hab
    · rw [if_pos hab] at h
      exact absurd h (by simp)
    · subst hab
      rw [if_neg (lt_irrefl a), if_neg (lt_irrefl a)] at h h'
      rw [charListLt_eq_of_not as bs h h']
    · rw [if_neg (lt_asymm hab), if_pos hab] at h'
      exact absurd h' (by simp)

/-- C9 (amended): for view insertions under two distinct names, building in
either order yields the same `Design` — the views container is a mapping
keyed by view name. -/
theorem design_builder_insert_view_comm (n1 n2 : ViewName) (f1 f2 : ViewFunction)
    (h : n1 ≠ n2) :
    ((DesignBuilder.new.insert_view n1 f1).insert_view n2 f2).unwrap =
      ((DesignBuilder.new.insert_view n2 f2).insert_view n1 f1).unwrap := by
  have hdata : n1.data ≠ n2.data := fun hd =>
    h (by cases n1; cases n2; exact congrArg String.mk hd)
  cases hx : keyLt n1 n2 with
  | true =>
    have hy : keyLt n2 n1 = false := charListLt_asymm n1.data n2.data hx
    simp [DesignBuilder.new, DesignBuilder.insert_view, DesignBuilder.unwrap,
      insertSorted, hx, hy, h, Ne.symm h]
  | false =>
    cases hy : keyLt n2 n1 with
    | true =>
      simp [DesignBuilder.new, DesignBuilder.insert_view, DesignBuilder.unwrap,
        insertSorted, hx, hy, h, Ne.symm h]
    | false =>
      exact absurd (charListLt_eq_of_not n1.data n2.data hx hy) hdata

/-- C9 witness: the two insertions of the repository's `design_serialize`
test, in both orders. -/
theorem design_builder_insert_view_comm_witness :
    ((DesignBuilder.new.insert_view "alpha" (ViewFunction.new "m1")).insert_view "bravo"
        (ViewFunction.new_with_reduce "m2" "_sum")).unwrap =
      ((DesignBuilder.new.insert_view "bravo"
          (ViewFunction.new_with_reduce "m2" "_sum")).insert_view "alpha"
        (ViewFunction.new "m1")).unwrap :=
  design_builder_insert_view_comm "alpha" "bravo" (ViewFunction.new "m1")
    (ViewFunction.new_with_reduce "m2" "_sum") (by decide)

/-- C10 counterexample: a JSON object without a `views` key does not always
deserialize successfully — an object with the unknown field `a` fails with
an unknown-field error. -/
theorem design_decode_no_views_cex :
    decodeDesign (.obj [("a", Json.null)]) = .error (.unknownField "a") ∧
    (decodeDesign (.obj [("a", Json.null)])).isOk = false :=
  ⟨rfl, rfl⟩

/-- C10 (amended): deserializing a `Design` from the empty JSON object —
the only object with no `views` key and no unknown key — succeeds with an
empty views map (the missing field is defaulted rather than an error), and
any successful decode of an object without a `views` key yields an empty
views map. -/
theorem design_decode_missing_views_defaults :
    decodeDesign (.obj []) = .ok ⟨[]⟩ ∧
    (∀ (fields : List (String × Json)) (d : Design),
      (∀ kv ∈ fields, kv.1 ≠ "views") →
      decodeDesign (.obj fields) = .ok d → d.views = []) := by
  constructor
  · rfl
  · intro fields d hk h
    cases fields with
    | nil =>
      simp only [decodeDesign, decodeDesignFields, Option.getD, Except.ok.injEq] at h
      rw [← h]
    | cons kv rest =>
      obtain ⟨k, v⟩ := kv
      have hne : k ≠ "views" := hk (k, v) (List.mem_cons_self _ _)
      simp only [decodeDesign, decodeDesignFields, if_neg hne] at h
      exact Except.noConfusion h

/-- C10 witness: the empty object decodes to the design with no views. -/
theorem design_decode_missing_views_defaults_witness :
    (Design.mk []).views = [] :=
  design_decode_missing_views_defaults.2 [] ⟨[]⟩ (by simp) rfl

/-- C6: malformed revision tokens are rejected with the error kind of the
rule violated: a zero sequence number, a non-hexadecimal digest, and a
missing dash separator. -/
theorem revision_parse_rejects_malformed :
    Revision.parse "0-abc" = .error .ZeroSequenceNumber ∧
    Revision.parse "1-xyz" = .error .DigestNotAllHex ∧
    Revision.parse "nodash" = .error .TooFewParts := by
  refine ⟨by decide, by decide, by decide⟩

/-- Helper: a digit character rendered by `digitChar` satisfies
`Char.isDigit`. -/
theorem digitChar_isDigit (n : Nat) (h : n < 10) : (digitChar n).isDigit = true := by
  interval_cases n <;> decide

/-- Helper: `digitChar` is inverted by subtracting the code of `0`. -/
theorem digitChar_toNat (n : Nat) (h : n < 10) : (digitChar n).toNat - 48 = n := by
  interval_cases n <;> decide

/-- Helper: the decimal rendering of a natural number is nonempty. -/
theorem natToDigits_ne_nil (n : Nat) : natToDigits n ≠ [] := by
  rw [natToDigits]
  by_cases h : n < 10
  · rw [dif_pos h]
    simp
  · rw [dif_neg h]
    simp

/-- Helper: the decimal rendering consists of digit characters only. -/
theorem natToDigits_all_digit (n : Nat) : (natToDigits n).all Char.isDigit = true := by
  induction n using Nat.strong_induction_on with
  | _ n ih =>
    rw [natToDigits]
    by_cases h : n < 10
    · rw [dif_pos h]
      simp [digitChar_isDigit n h]
    · rw [dif_neg h]
      rw [List.all_append]
      rw [ih (n / 10) (Nat.div_lt_self (by omega) (by omega))]
      simp [digitChar_isDigit (n % 10) (Nat.mod_lt _ (by omega))]

/-- Helper: the decimal rendering never contains a dash. -/
theorem natToDigits_no_dash (n : Nat) : '-' ∉ natToDigits n := by
  intro hmem
  have hall := natToDigits_all_digit n
  rw [List.all_eq_true] at hall
  have := hall '-' hmem
  simp [Char.isDigit] at this

/-- Helper: `valNatAux` processes an appended list in two stages. -/
theorem valNatAux_append (l₁ l₂ : List Char) (acc : Nat) :
    valNatAux acc (l₁ ++ l₂) = valNatAux (valNatAux acc l₁) l₂ := by
  induction l₁ generalizing acc with
  | nil => rfl
  | cons c rest ih => exact ih (acc * 10 + (c.toNat - 48))

/-- Helper: reading back the decimal rendering of `n` on top of an
accumulator shifts the accumulator and adds `n`. -/
theorem valNatAux_natToDigits (n : Nat) :
    ∀ acc, valNatAux acc (natToDigits n) =
      acc * 10 ^ (natToDigits n).length + n := by
  induction n using Nat.strong_induction_on with
  | _ n ih =>
    intro acc
    rw [natToDigits]
    by_cases h : n < 10
    · rw [dif_pos h]
      have hv : valNatAux acc [digitChar n] =
          acc * 10 + ((digitChar n).toNat - 48) := rfl
      rw [hv, digitChar_toNat n h, List.length_singleton, pow_one]
    · rw [dif_neg h]
      rw [valNatAux_append]
      rw [ih (n / 10) (Nat.div_lt_self (by omega) (by omega))]
      have hmod : (digitChar (n % 10)).toNat - 48 = n % 10 :=
        digitChar_toNat (n % 10) (Nat.mod_lt _ (by omega))
      have hdm : n / 10 * 10 + n % 10 = n := by omega
      have hv : valNatAux (acc * 10 ^ (natToDigits (n / 10)).length + n / 10)
            [digitChar (n % 10)] =
          (acc * 10 ^ (natToDigits (n / 10)).length + n / 10) * 10 +
            ((digitChar (n % 10)).toNat - 48) := rfl
      rw [hv, hmod, List.length_append, List.length_singleton]
      calc (acc * 10 ^ (natToDigits (n / 10)).length + n / 10) * 10 + n % 10
          = acc * (10 ^ (natToDigits (n / 10)).length * 10) +
            (n / 10 * 10 + n % 10) := by ring
        _ = acc * 10 ^ ((natToDigits (n / 10)).length + 1) + n := by
            rw [hdm, pow_succ]

/-- Helper: parsing inverts the decimal rendering. -/
theorem parseNatDigits_natToDigits (n : Nat) :
    parseNatDigits (natToDigits n) = some n := by
  have h1 : (natToDigits n).isEmpty = false := by
    cases hne : natToDigits n with
    | nil => exact absurd hne (natToDigits_ne_nil n)
    | cons a l => rfl
  have h2 := valNatAux_natToDigits n 0
  simp only [parseNatDigits, h1, natToDigits_all_digit n, Bool.false_eq_true,
    if_false, if_true]
  rw [h2]
  simp

/-- Helper: splitting at the first dash recovers a dash-free prefix and the
rest. -/
theorem splitFirstDash_append (p s : List Char) (h : '-' ∉ p) :
    splitFirstDash (p ++ '-' :: s) = some (p, s) := by
  induction p with
  | nil => simp [splitFirstDash]
  | cons c rest ih =>
    have hc : c ≠ '-' := fun he => h (by simp [he])
    have hr : '-' ∉ rest := fun hm => h (List.mem_cons_of_mem _ hm)
    simp [splitFirstDash, hc, ih hr]

/-- C8: revision format/parse round-trip — for every sequence number `≥ 1`
and all-hexadecimal digest, parsing the formatted revision token yields the
original `RevisionId` unchanged. -/
theorem revision_parse_format_roundtrip (seq : Nat) (digest : String)
    (h1 : 1 ≤ seq) (h2 : digest.data.all isHexChar = true) :
    Revision.parse (Revision.format ⟨seq, digest⟩) = .ok ⟨seq, digest⟩ := by
  obtain ⟨l⟩ := digest
  have h2' : l.all isHexChar = true := h2
  have e1 : splitFirstDash (Revision.format ⟨seq, ⟨l⟩⟩).data =
      some (natToDigits seq, l) :=
    splitFirstDash_append (natToDigits seq) l (natToDigits_no_dash seq)
  simp only [Revision.parse, e1, parseNatDigits_natToDigits]
  rw [if_neg (by omega : ¬ seq = 0), if_pos h2']

/-- C8 witness: a concrete revision with sequence 1 and digest `abc12f`. -/
theorem revision_parse_format_roundtrip_witness :
    Revision.parse (Revision.format ⟨1, "abc12f"⟩) = .ok ⟨1, "abc12f"⟩ :=
  revision_parse_format_roundtrip 1 "abc12f" (by decide) (by decide)

/-- Helper: the last element of a list extended on the left is the last
element of its right part. -/
theorem getLast?_append_cons (l₁ : List Char) (x : Char) (l₂ : List Char) :
    (l₁ ++ x :: l₂).getLast? = (x :: l₂).getLast? := by
  rw [List.getLast?_append, List.getLast?_cons]
  rfl

/-- Helper: a slash-free list splits into itself alone. -/
theorem splitSlash_no_slash :
    ∀ a : List Char, '/' ∉ a → splitSlash a = [a]
  | [], _ => rfl
  | c :: rest, h => by
    have hc : c ≠ '/' := fun he => h (by simp [he])
    have hr : '/' ∉ rest := fun hm => h (List.mem_cons_of_mem _ hm)
    simp [splitSlash, hc, splitSlash_no_slash rest hr]

/-- Helper: splitting peels off a slash-free leading segment. -/
theorem splitSlash_append :
    ∀ (a rest : List Char), '/' ∉ a →
      splitSlash (a ++ '/' :: rest) = a :: splitSlash rest
  | [], rest, _ => by simp [splitSlash]
  | c :: a', rest, h => by
    have hc : c ≠ '/' := fun he => h (by simp [he])
    have ha : '/' ∉ a' := fun hm => h (List.mem_cons_of_mem _ hm)
    simp [splitSlash, hc, splitSlash_append a' rest ha]

/-- C7: parsing a document path enforces the exact segment count — for
every nonempty slash-free segments, a path with one segment fails with
`TooFewSegments` and a path with four segments fails with
`TooManySegments`. -/
theorem document_path_segment_count (a b c d : List Char)
    (ha : a ≠ [] ∧ '/' ∉ a) (hb : b ≠ [] ∧ '/' ∉ b)
    (hc : c ≠ [] ∧ '/' ∉ c) (hd : d ≠ [] ∧ '/' ∉ d) :
    DocumentPath.parse ⟨'/' :: a⟩ = .error .TooFewSegments ∧
    DocumentPath.parse ⟨'/' :: (a ++ '/' :: (b ++ '/' :: (c ++ '/' :: d)))⟩ =
      .error .TooManySegments := by
  constructor
  · have hlast1 : a.getLast? ≠ some '/' :=
      fun hl => ha.2 (List.mem_of_mem_getLast? hl)
    show parseDocPathChars ('/' :: a) = .error .TooFewSegments
    simp only [parseDocPathChars]
    rw [if_neg (fun hne => hne rfl)]
    rw [if_neg hlast1]
    rw [splitSlash_no_slash a ha.2]
    show (if ([a] : List (List Char)).length < 2 then
        (Except.error PathParseErrorKind.TooFewSegments :
          Except PathParseErrorKind (String × String))
      else .error .TooManySegments) = .error .TooFewSegments
    rw [if_pos (by simp)]
  · have hdlast : ∃ y, d.getLast? = some y ∧ y ≠ '/' := by
      cases hdl : d.getLast? with
      | none => exact absurd (List.getLast?_eq_none_iff.mp hdl) hd.1
      | some y =>
        exact ⟨y, rfl, fun he => hd.2 (he ▸ List.mem_of_mem_getLast? hdl)⟩
    obtain ⟨y, hy, hyne⟩ := hdlast
    have hR : (a ++ '/' :: (b ++ '/' :: (c ++ '/' :: d))).getLast? = some y := by
      rw [getLast?_append_cons, List.getLast?_cons]
      rw [getLast?_append_cons, List.getLast?_cons]
      rw [getLast?_append_cons, List.getLast?_cons]
      rw [hy]
      rfl
    have hlast2 : (a ++ '/' :: (b ++ '/' :: (c ++ '/' :: d))).getLast? ≠ some '/' := by
      rw [hR]
      simp [hyne]
    have hsp : splitSlash (a ++ '/' :: (b ++ '/' :: (c ++ '/' :: d))) =
        [a, b, c, d] := by
      rw [splitSlash_append a _ ha.2, splitSlash_append b _ hb.2,
        splitSlash_append c _ hc.2, splitSlash_no_slash d hd.2]
    show parseDocPathChars ('/' :: (a ++ '/' :: (b ++ '/' :: (c ++ '/' :: d)))) =
      .error .TooManySegments
    simp only [parseDocPathChars]
    rw [if_neg (fun hne => hne rfl)]
    rw [if_neg hlast2]
    rw [hsp]
    show (if ([a, b, c, d] : List (List Char)).length < 2 then
        (Except.error PathParseErrorKind.TooFewSegments :
          Except PathParseErrorKind (String × String))
      else .error .TooManySegments) = .error .TooManySegments
    rw [if_neg (by simp)]

/-- C7 witness: the concrete paths `/db` and `/db/doc/x/y`. -/
theorem document_path_segment_count_witness :
    DocumentPath.parse ⟨'/' :: ['d', 'b']⟩ = .error .TooFewSegments ∧
    DocumentPath.parse
        ⟨'/' :: (['d', 'b'] ++ '/' :: (['d', 'o', 'c'] ++ '/' :: (['x'] ++ '/' :: ['y'])))⟩ =
      .error .TooManySegments :=
  document_path_segment_count ['d', 'b'] ['d', 'o', 'c'] ['x'] ['y']
    (by decide) (by decide) (by decide) (by decide)

end Chill
